import Mathlib

/-!
Verification development for the `bs` incremental build system
(modules `bs/util.py`, `bs/cache.py`, `bs/nodes.py`, `bs/backend.py`,
`bs/context.py`, `bs/traversal.py`).

The Python sources are shallowly embedded as executable Lean definitions:
pure functions become Lean functions, in-place mutation becomes explicit
state passing, and a Python exception becomes an error value returned
together with the state the object holds at the moment the exception
propagates (Python leaves the mutated object behind, so the embedding
must keep that state observable).
-/

set_option maxRecDepth 4000

deriving instance DecidableEq for Except

namespace BS

/-! ## util.py — fingerprinting

`sha1_iterable(*iterables)` feeds each element into a SHA-1 hasher followed
by a null byte.  An element that is `bytes` is fed verbatim
(`hasher.update(item)` succeeds); any other element raises `TypeError`
inside `update` and is then fed as `repr(item).encode("utf8")`.

We model the Python values that actually flow into the hasher in this
repository: `bytes`, `str`, `int` and `None`.  Bytes are lists of `Nat`
(each < 256 for real inputs; nothing below depends on the bound). -/

inductive PyVal where
  | bytes (bs : List Nat)
  | str (s : String)
  | int (n : Int)
  | none
deriving DecidableEq

/-- UTF-8 encoding of one code point. -/
def utf8_char (n : Nat) : List Nat :=
  if n < 128 then [n]
  else if n < 2048 then [192 + n / 64, 128 + n % 64]
  else if n < 65536 then [224 + n / 4096, 128 + (n / 64) % 64, 128 + n % 64]
  else [240 + n / 262144, 128 + (n / 4096) % 64, 128 + (n / 64) % 64, 128 + n % 64]

/-- Byte list of a Lean string under UTF-8, as `Nat`s. -/
def utf8_bytes (s : String) : List Nat :=
  s.data.flatMap (fun c => utf8_char c.toNat)

/-- Bytes a single element contributes to the hasher: `bytes` verbatim,
everything else as `repr(item).encode("utf8")`.  (Python `repr` of a string
wraps it in quotes; escaping of special characters inside the string is not
modelled, no claim exercises it.) -/
def feed_bytes : PyVal → List Nat
  | .bytes bs => bs
  | .str s => utf8_bytes ("'" ++ s ++ "'")
  | .int n => utf8_bytes (toString n)
  | .none => utf8_bytes "None"

/-- Null-separated byte stream of one iterable: each element's bytes are
followed by a single `0` byte (`hasher.update(item); hasher.update(b"\x00")`). -/
def item_stream : List PyVal → List Nat
  | [] => []
  | v :: vs => feed_bytes v ++ 0 :: item_stream vs

/-- Concatenated stream over all iterables passed to `sha1_iterable`. -/
def stream_of : List (List PyVal) → List Nat
  | [] => []
  | it :: rest => item_stream it ++ stream_of rest

/-! SHA-1 itself (used by `hashlib.sha1` in the source), over byte lists,
with 32-bit words as `Nat` reduced modulo `2^32`. -/

def w32 : Nat := 4294967296

/-- Left rotation of a 32-bit word. -/
def rotl (s x : Nat) : Nat := ((x <<< s) ||| (x >>> (32 - s))) % w32

/-- SHA-1 round function, by round index. -/
def sha1_f (i b c d : Nat) : Nat :=
  if i < 20 then (b &&& c) ||| ((b ^^^ (w32 - 1)) &&& d)
  else if i < 40 then b ^^^ c ^^^ d
  else if i < 60 then (b &&& c) ||| (b &&& d) ||| (c &&& d)
  else b ^^^ c ^^^ d

/-- SHA-1 round constants, by round index. -/
def sha1_k (i : Nat) : Nat :=
  if i < 20 then 1518500249
  else if i < 40 then 1859775393
  else if i < 60 then 2400959708
  else 3395469782

/-- Big-endian byte expansion (`n` bytes of `x`). -/
def be_bytes : Nat → Nat → List Nat
  | 0, _ => []
  | n + 1, x => (x / 2 ^ (8 * n)) % 256 :: be_bytes n x

/-- Pack bytes into big-endian 32-bit words (4 bytes each). -/
def words_of : List Nat → List Nat
  | b0 :: b1 :: b2 :: b3 :: rest =>
      (((b0 * 256 + b1) * 256 + b2) * 256 + b3) :: words_of rest
  | _ => []

/-- SHA-1 padding: `0x80`, zeros to 56 mod 64, 8-byte big-endian bit length. -/
def sha1_pad (msg : List Nat) : List Nat :=
  msg ++ [128] ++ List.replicate ((119 - msg.length % 64) % 64) 0
      ++ be_bytes 8 (8 * msg.length)

/-- Split a byte list into 64-byte chunks (structural recursion on a fuel
bounded by the length, so that the kernel can evaluate it). -/
def chunks64_aux : Nat → List Nat → List (List Nat)
  | 0, _ => []
  | _ + 1, [] => []
  | fuel + 1, l => l.take 64 :: chunks64_aux fuel (l.drop 64)

def chunks64 (l : List Nat) : List (List Nat) :=
  chunks64_aux l.length l

/-- The five 32-bit state words of SHA-1. -/
structure H5 where
  h0 : Nat
  h1 : Nat
  h2 : Nat
  h3 : Nat
  h4 : Nat
deriving DecidableEq

/-- One SHA-1 round applied to the working tuple `(a, b, c, d, e)`. -/
def sha1_step (w : Array Nat) (st : Nat × Nat × Nat × Nat × Nat) (i : Nat) :
    Nat × Nat × Nat × Nat × Nat :=
  match st with
  | (a, b, c, d, e) =>
      ((rotl 5 a + sha1_f i b c d + e + sha1_k i + w.getD i 0) % w32,
       a, rotl 30 b, c, d)

/-- Compress one 64-byte block into the running state. -/
def sha1_block (h : H5) (block : List Nat) : H5 :=
  let ws0 := (words_of block).toArray
  let ws := (List.range 64).foldl
    (fun a i =>
      a.push (rotl 1 ((a.getD (i + 13) 0) ^^^ (a.getD (i + 8) 0)
          ^^^ (a.getD (i + 2) 0) ^^^ (a.getD i 0)))) ws0
  match (List.range 80).foldl (sha1_step ws) (h.h0, h.h1, h.h2, h.h3, h.h4) with
  | (a, b, c, d, e) =>
      ⟨(h.h0 + a) % w32, (h.h1 + b) % w32, (h.h2 + c) % w32,
       (h.h3 + d) % w32, (h.h4 + e) % w32⟩

/-- SHA-1 digest (20 bytes) of a byte list. -/
def sha1 (msg : List Nat) : List Nat :=
  let h := (chunks64 (sha1_pad msg)).foldl sha1_block
    ⟨1732584193, 4023233417, 2562383102, 271733878, 3285377520⟩
  be_bytes 4 h.h0 ++ be_bytes 4 h.h1 ++ be_bytes 4 h.h2
      ++ be_bytes 4 h.h3 ++ be_bytes 4 h.h4

/-- `util.sha1_iterable(*iterables)`: digest of the null-separated stream. -/
def sha1_iterable (iterables : List (List PyVal)) : List Nat :=
  sha1 (stream_of iterables)

/-- `util.sha1_file`: digest of a file's content (the file is mmapped and
fed to SHA-1 whole; here the content is already a byte list). -/
def sha1_file (content : List Nat) : List Nat :=
  sha1 content

/-! ## cache.py — the content-addressed cache

`Cache` keeps `_data` (an `OrderedDict` from full hash to `_Item`, ordered
LRU-first/MRU-last), `_partial_hashes` (a dict from partial hash to the list
of full hashes sharing it), `size_used`, `size_limit`, and an on-disk
directory whose leaves are one directory per cached entry.

The embedding is polymorphic in the hash type `κ` (Python `bytes`) and in
the implicit-dependency payload `α` (the cache stores it opaquely; the
tests even store plain integers there).  Dicts become association lists in
insertion order; the `OrderedDict` order of `_data` is the list order.
`get_directory` maps a full hash injectively to a directory path
(`root/HH/HH…`), so the on-disk state is modelled as an association list
from full hash to the list of `(file name, size)` pairs inside that
entry's directory, plus a flag for whether the root directory exists. -/

/-- Association-list lookup (first binding wins, as in a dict). -/
def lookupA {κ β : Type} [DecidableEq κ] : List (κ × β) → κ → Option β
  | [], _ => Option.none
  | (k, b) :: rest, k' => if k = k' then some b else lookupA rest k'

/-- Association-list delete of the (unique) binding of a key, keeping order. -/
def eraseKeyA {κ β : Type} [DecidableEq κ] : List (κ × β) → κ → List (κ × β)
  | [], _ => []
  | (k, b) :: rest, k' => if k = k' then rest else (k, b) :: eraseKeyA rest k'

/-- Errors a `Cache` method can raise. -/
inductive CacheErr where
  | assertionError   -- a failed `assert`
  | cacheTooSmall    -- `RuntimeError("The cache is too small")`
  | fileNotFound     -- `shutil.rmtree` on a directory that does not exist
  | keyError         -- dict lookup of a missing key
  | valueError       -- `list.remove` of a missing element
deriving DecidableEq

/-- `_Item`: one cache entry's metadata (`size`, `partial_hash` — renamed
`part_hash` here, `implicit_dependencies`). -/
structure _Item (κ α : Type) where
  size : Int
  part_hash : κ
  implicit_dependencies : α
deriving DecidableEq

/-- The whole state of a `Cache`, in-memory indices plus the modelled disk. -/
structure Cache (κ α : Type) where
  size_limit : Int
  size_used : Int
  data : List (κ × _Item κ α)                -- `_data`, LRU-first / MRU-last
  part_hashes : List (κ × List κ)            -- `_partial_hashes`
  disk : List (κ × List (String × Int))      -- entry directory → files (name, size)
  root_exists : Bool                         -- whether the cache root directory exists
deriving DecidableEq

/-- `self._partial_hashes.setdefault(partial_hash, []).append(final_hash)`. -/
def bucket_append {κ : Type} [DecidableEq κ] :
    List (κ × List κ) → κ → κ → List (κ × List κ)
  | [], p, f => [(p, [f])]
  | (p', fs) :: rest, p, f =>
      if p' = p then (p', fs ++ [f]) :: rest
      else (p', fs) :: bucket_append rest p f

/-- The `_discard_one` index update:
`self._partial_hashes[p].remove(f)` followed by deletion of the bucket when
it became empty.  A missing bucket raises `KeyError`; a missing element
raises `ValueError`; either leaves the dict unchanged. -/
def bucket_remove {κ : Type} [DecidableEq κ] :
    List (κ × List κ) → κ → κ → Except CacheErr (List (κ × List κ))
  | [], _, _ => .error .keyError
  | (p', fs) :: rest, p, f =>
      if p' = p then
        if f ∈ fs then
          let fs' := fs.erase f
          .ok (if fs' = [] then rest else (p', fs') :: rest)
        else .error .valueError
      else (bucket_remove rest p f).map (fun l => (p', fs) :: l)

/-- The `while` loop of `_reserve_space`, fused with `_discard_one`, over the
components of the cache state.  Returns the components as they are when the
loop exits or when an exception propagates, plus the exception if any.
The LRU entry is the head of `data`. -/
def reserve_loop {κ α : Type} [DecidableEq κ] (size limit : Int) :
    List (κ × _Item κ α) → List (κ × List κ) → List (κ × List (String × Int)) → Int →
    (List (κ × _Item κ α) × List (κ × List κ) × List (κ × List (String × Int)) × Int)
      × Option CacheErr
  | data, ph, disk, used =>
    if used + size > limit then
      match data with
      | [] => (([], ph, disk, used), some .cacheTooSmall)
      | (fh, it) :: rest =>
        -- `_discard_one`: popitem(last=False), index removal, rmtree, size bookkeeping
        match bucket_remove ph it.part_hash fh with
        | .error e => ((rest, ph, disk, used), some e)
        | .ok ph' =>
          match lookupA disk fh with
          | Option.none => ((rest, ph', disk, used), some .fileNotFound)
          | some _ => reserve_loop size limit rest ph' (eraseKeyA disk fh) (used - it.size)
    else ((data, ph, disk, used), none)

/-- `Cache._reserve_space(size)` on a cache state. -/
def reserve_space {κ α : Type} [DecidableEq κ] (size : Int) (c : Cache κ α) :
    Cache κ α × Option CacheErr :=
  match reserve_loop size c.size_limit c.data c.part_hashes c.disk c.size_used with
  | ((data, ph, disk, used), e) =>
      ({ c with data := data, part_hashes := ph, disk := disk, size_used := used }, e)

/-- `Cache.put(final_hash, partial_hash, paths, implicit_dependencies)`.
`files` are the `(basename, size)` pairs of `paths`; the files are moved
into the entry's directory, which (with its parents, including the root) is
created by `mkdir(parents=True)`.  Note the source registers the new entry
in both indices *before* reserving space. -/
def Cache.put {κ α : Type} [DecidableEq κ] (c : Cache κ α) (final part : κ)
    (files : List (String × Int)) (deps : α) : Cache κ α × Option CacheErr :=
  if (lookupA c.data final).isSome then (c, some .assertionError)
  else if final ∈ (lookupA c.part_hashes part).getD [] then (c, some .assertionError)
  else
    let size : Int := (files.map (fun f => f.2)).sum
    let c1 : Cache κ α :=
      { c with data := c.data ++ [(final, ⟨size, part, deps⟩)],
               part_hashes := bucket_append c.part_hashes part final }
    match reserve_space size c1 with
    | (c2, some e) => (c2, some e)
    | (c2, none) =>
      if (lookupA c2.disk final).isSome then (c2, some .assertionError)
      else ({ c2 with disk := c2.disk ++ [(final, files)],
                      root_exists := true,
                      size_used := c2.size_used + size }, none)

/-- The list comprehension `[self._data[h].implicit_dependencies for h in hs]`:
a full hash dangling from a bucket raises `KeyError`. -/
def deps_of {κ α : Type} [DecidableEq κ] (data : List (κ × _Item κ α)) :
    List κ → Except CacheErr (List α)
  | [] => .ok []
  | h :: rest =>
    match lookupA data h with
    | Option.none => .error .keyError
    | some it => (deps_of data rest).map (fun l => it.implicit_dependencies :: l)

/-- `Cache.get_candidate_implicit_dependencies(partial_hash)`: read-only; the
state component records what the call leaves behind.  An unknown partial
hash returns `[]` (the `KeyError` is caught). -/
def Cache.get_candidate_implicit_dependencies {κ α : Type} [DecidableEq κ]
    (c : Cache κ α) (part : κ) : Cache κ α × Except CacheErr (List α) :=
  match lookupA c.part_hashes part with
  | Option.none => (c, .ok [])
  | some hs => (c, deps_of c.data hs)

/-- `Cache.accessed(final_hash)`: assert presence, then
`self._data.move_to_end(final_hash)` (the entry becomes MRU-most). -/
def Cache.accessed {κ α : Type} [DecidableEq κ] (c : Cache κ α) (final : κ) :
    Cache κ α × Option CacheErr :=
  match lookupA c.data final with
  | Option.none => (c, some .assertionError)
  | some it => ({ c with data := eraseKeyA c.data final ++ [(final, it)] }, none)

/-- `Cache.clear(delete_directory)`. -/
def Cache.clear {κ α : Type} (c : Cache κ α) (delete_directory : Bool) : Cache κ α :=
  { c with size_used := 0, data := [], part_hashes := [],
           disk := if delete_directory then [] else c.disk,
           root_exists := if delete_directory then false else c.root_exists }

/-- Boolean check that a list has no duplicates (`len(l) != len(set(l))`). -/
def nodupB {κ : Type} [DecidableEq κ] : List κ → Bool
  | [] => true
  | x :: xs => !(decide (x ∈ xs)) && nodupB xs

/-- Checks 1–4 of `verify_state` over the `_partial_hashes` dict: every
bucket non-empty and duplicate-free, every listed full hash present in
`_data` and pointing back to the same partial hash. -/
def buckets_ok {κ α : Type} [DecidableEq κ]
    (data : List (κ × _Item κ α)) : List (κ × List κ) → Bool
  | [] => true
  | (p, fs) :: rest =>
      !fs.isEmpty && nodupB fs &&
      fs.all (fun f =>
        match lookupA data f with
        | Option.none => false
        | some it => it.part_hash = p) &&
      buckets_ok data rest

/-- Total size of the modelled on-disk files. -/
def disk_size {κ : Type} (disk : List (κ × List (String × Int))) : Int :=
  (disk.map (fun d => (d.2.map (fun f => f.2)).sum)).sum

/-- `Cache.verify_state()`: checks 1–5 on the indices, then walks the disk
(check 6: every file lies under an owned entry directory and the root, when
it exists, is non-trivial), then compares sizes (checks 7 and 8). -/
def Cache.verify_state {κ α : Type} [DecidableEq κ] (c : Cache κ α) : Bool :=
  let accessible := c.part_hashes.flatMap (fun pb => pb.2)
  buckets_ok c.data c.part_hashes &&
  c.data.all (fun fi => fi.1 ∈ accessible) &&
  (if c.root_exists then
     !c.disk.isEmpty && c.disk.all (fun d => (lookupA c.data d.1).isSome)
   else c.disk.isEmpty) &&
  (let size := if c.root_exists then disk_size c.disk else 0
   size = c.size_used && decide (size ≤ c.size_limit))

/-- Content of the metadata save file, as far as `_load` observes it: either
undecodable (`pickle.PickleError` on the first `load()` call, as with the
`b"damaged!"` of the tests) or a well-formed pickle stream of
`(version, size_used, _data, _partial_hashes)`. -/
inductive MetaFile (κ α : Type) where
  | damaged
  | valid (version : Nat) (used : Int) (data : List (κ × _Item κ α))
      (ph : List (κ × List κ))
deriving DecidableEq

/-- `Cache._load()`: takes the optional metadata file, returns the cache
state after the call, the metadata file after the call, and the returned
boolean.  A missing file returns `False` untouched; otherwise the file is
unlinked in the `finally:` block whether decoding succeeded or not, and on
success the method returns `verify_state()`. -/
def Cache._load {κ α : Type} [DecidableEq κ] (c : Cache κ α)
    (meta : Option (MetaFile κ α)) : Cache κ α × Option (MetaFile κ α) × Bool :=
  match meta with
  | Option.none => (c, Option.none, false)
  | some .damaged => (c, Option.none, false)
  | some (.valid _v used data ph) =>
      let c' := { c with size_used := used, data := data, part_hashes := ph }
      (c', Option.none, c'.verify_state)

/-! ## nodes.py — `Node` edge algebra, and backend.py — target registration

Graph nodes live in an arena: a node id is its index in a list of
`NodeData`.  `Node.__init__` gives every node `dependencies = set()` (we
keep insertion order as a duplicate-free list), `named_dependencies = {}`,
and `reverse_dependencies = targets = dirty = None` — the `None`s are only
replaced during registration, which is why they are `Option`s here. -/

structure NodeData where
  is_source : Bool                           -- isinstance(node, SourceFile)
  path : String                              -- SourceFile path ("" for other nodes)
  dependencies : List Nat
  named_dependencies : List (String × Nat)
  reverse_dependencies : Option (List Nat)
  targets : Option (List Nat)                -- ids of owning _TargetData objects
  dirty : Option Bool
deriving DecidableEq

instance : Inhabited NodeData :=
  ⟨⟨false, "", [], [], Option.none, Option.none, Option.none⟩⟩

/-- A freshly constructed non-source node (`Node.__init__`). -/
def fresh_node : NodeData :=
  ⟨false, "", [], [], Option.none, Option.none, Option.none⟩

/-- A freshly constructed `SourceFile(path)`. -/
def source_node (p : String) : NodeData :=
  ⟨true, p, [], [], Option.none, Option.none, Option.none⟩

abbrev Graph := List NodeData

/-- Arena access: the node stored at an id (out-of-range reads the default,
never exercised by the modelled runs). -/
def node_at (g : Graph) (i : Nat) : NodeData := g.getD i default

/-- Errors raised by `Node` methods and `_TargetData._process_nodes`. -/
inductive GErr where
  | dependencyExists    -- RuntimeError("Dependency already existed")
  | nameExists          -- RuntimeError("Dependency name already existed")
  | dependencyMissing   -- RuntimeError("Removing nonexistent dependency")
  | assertionFailed     -- a failed `assert` in _process_nodes
  | typeError           -- iterating a reverse_dependencies that is still None
  | outOfFuel           -- the bounded interpreter ran out of steps (never in our runs)
deriving DecidableEq

/-- `Node.add_dependency(other, name=None)` on node `u` of the arena. -/
def add_dependency (g : Graph) (u v : Nat) (name : Option String) :
    Graph × Option GErr :=
  if v ∈ (node_at g u).dependencies then (g, some .dependencyExists)
  else
    match name with
    | some n =>
      if (lookupA (node_at g u).named_dependencies n).isSome then (g, some .nameExists)
      else (g.set u { node_at g u with
              named_dependencies := (node_at g u).named_dependencies ++ [(n, v)],
              dependencies := (node_at g u).dependencies ++ [v] }, none)
    | Option.none =>
        (g.set u { node_at g u with
            dependencies := (node_at g u).dependencies ++ [v] }, none)

/-- `Node.remove_dependency(other)` on node `u`: checks presence, deletes the
first named alias bound to `v` (dicts iterate in insertion order), removes
the forward edge. -/
def remove_dependency (g : Graph) (u v : Nat) : Graph × Option GErr :=
  if v ∉ (node_at g u).dependencies then (g, some .dependencyMissing)
  else (g.set u { node_at g u with
          named_dependencies := (node_at g u).named_dependencies.eraseP (fun kv => kv.2 == v),
          dependencies := (node_at g u).dependencies.erase v }, none)

/-- The loop `for revdep in node.reverse_dependencies: revdep.remove_dependency
(old_node); revdep.add_dependency(node)` of the duplicate-source merge in
`_TargetData._process_nodes` (backend.py).  Note the source iterates the
reverse-dependents of the *canonical* node (`node` was just rebound to it),
not those of the duplicate. -/
def merge_revdeps (g : Graph) (canon old : Nat) : List Nat → Graph × Option GErr
  | [] => (g, none)
  | r :: rest =>
    match remove_dependency g r old with
    | (g', some e) => (g', some e)
    | (g', none) =>
      match add_dependency g' r canon Option.none with
      | (g'', some e) => (g'', some e)
      | (g'', none) => merge_revdeps g'' canon old rest

/-- Insert into a Python set modelled as a duplicate-free list. -/
def add_unique (l : List Nat) (x : Nat) : List Nat :=
  if x ∈ l then l else l ++ [x]

/-- Registration state: the arena, `backend.files` (path → node id) and the
current `_TargetData`'s `waiting_nodes`. -/
structure Reg where
  graph : Graph
  files : List (String × Nat)
  waiting : List Nat
deriving DecidableEq

/-- The `for dep in node.dependencies:` loop of `_process_nodes`: initialise
each dependency's `reverse_dependencies` if still `None`, then add `node`. -/
def init_revdeps (g : Graph) (node : Nat) : List Nat → Graph
  | [] => g
  | d :: rest =>
    let nd := g.getD d default
    let revs := (nd.reverse_dependencies).getD []
    init_revdeps (g.set d { nd with reverse_dependencies := some (add_unique revs node) })
      node rest

/-- One BFS iteration of `_TargetData._process_nodes(backend, target_node)`
plus the loop, as a fuel-bounded interpreter.  `td` is the id of the
`_TargetData` being registered (`self`), `target` the current value of the
`target_node` variable, `queue` the `to_visit` deque.  Returns the final
state, the final `target_node`, and the exception if one propagated. -/
def process_nodes (td : Nat) : Nat → Reg → Nat → List Nat → Reg × Nat × Option GErr
  | 0, st, target, queue =>
      (st, target, if queue.isEmpty then none else some .outOfFuel)
  | _ + 1, st, target, [] => (st, target, none)
  | fuel + 1, st, target, node :: rest =>
    let nd := st.graph.getD node default
    -- `if isinstance(node, nodes.SourceFile):`
    let merged : Reg × Nat × Nat × Option GErr :=  -- state, current node, target, error
      if nd.is_source then
        if !nd.dependencies.isEmpty then (st, node, target, some .assertionFailed)
        else if node = target then (st, node, target, some .assertionFailed)
        else
          match lookupA st.files nd.path with
          | some canon =>
            -- duplicate: `old_node = node; node = backend.files[node.path]`
            match (st.graph.getD canon default).reverse_dependencies with
            | Option.none => (st, canon, target, some .typeError)
            | some revs =>
              match merge_revdeps st.graph canon node revs with
              | (g', some e) => ({ st with graph := g' }, canon, target, some e)
              | (g', none) =>
                ({ st with graph := g' }, canon,
                 if node = target then canon else target, none)
          | Option.none =>
            ({ st with files := st.files ++ [(nd.path, node)] }, node, target, none)
      else (st, node, target, none)
    match merged with
    | (st1, _, target1, some e) => (st1, target1, some e)
    | (st1, cur, target1, none) =>
      let nd1 := st1.graph.getD cur default
      -- `if node.targets is None: node.targets = WeakSet()`
      let tgts := (nd1.targets).getD []
      -- `if self not in node.targets: node.targets.add(self); to_visit.extend(...)`
      let first_visit := td ∉ tgts
      let tgts' := if first_visit then tgts ++ [td] else tgts
      let queue' := if first_visit then rest ++ nd1.dependencies else rest
      let g1 := st1.graph.set cur { nd1 with targets := some tgts' }
      -- `if node.reverse_dependencies is None: ... = WeakSet()`
      let nd2 := g1.getD cur default
      let g2 := g1.set cur
        { nd2 with reverse_dependencies := some ((nd2.reverse_dependencies).getD []) }
      -- `for dep in node.dependencies: ...`
      let g3 := init_revdeps g2 cur nd1.dependencies
      -- `node.dirty = True`
      let nd3 := g3.getD cur default
      let g4 := g3.set cur { nd3 with dirty := some true }
      -- `if not node.dependencies: self.waiting_nodes.add(node)`
      let waiting' := if nd1.dependencies.isEmpty then add_unique st1.waiting cur
                      else st1.waiting
      process_nodes td fuel { st1 with graph := g4, waiting := waiting' } target1 queue'

/-! ## traversal.py — `update(context, targets, dirty, job_count=1)`

Phase 1 walks reverse edges from a virtual `head` whose
`reverse_dependencies` is the dirty list, counting blockers in the
`need_update` counter.  The loop body runs, for *every* traversed edge,
`new_dirty.add(reverse_dependency)` (traversal.py line 27) — but `new_dirty`
is never assigned anywhere in the function (it is also the value of the
final `return` on line 64), so the first traversed edge raises
`NameError: name 'new_dirty' is not defined`.  Phase 2 therefore only runs
when the dirty set is empty, in which case it submits nothing; the final
`return new_dirty` then raises the same `NameError`. -/

structure TNode where
  reverse_dependencies : List Nat
  targets : List Nat
deriving DecidableEq

instance : Inhabited TNode := ⟨⟨[], []⟩⟩

inductive TravErr where
  | nameError   -- NameError: name 'new_dirty' is not defined
deriving DecidableEq

/-- Reverse-dependency list of a queue entry; `Option.none` is the virtual
`head` node, whose reverse dependencies are the dirty list. -/
def trav_revdeps (g : List TNode) (dirty : List Nat) : Option Nat → List Nat
  | Option.none => dirty
  | some n => (g.getD n default).reverse_dependencies

/-- The Phase-1 `while to_check:` loop.  Popping a node with at least one
reverse dependency executes lines 22–26 for the first of them (bookkeeping
whose effects die with the exception) and then line 27, which raises
`NameError`.  Only a run that never traverses an edge completes, with the
counter still empty. -/
def phase1_loop (g : List TNode) (dirty : List Nat) :
    List (Option Nat) → List (Nat × Nat) → Except TravErr (List (Nat × Nat))
  | [], nu => .ok nu
  | q :: rest, nu =>
    match trav_revdeps g dirty q with
    | [] => phase1_loop g dirty rest nu
    | _ :: _ => .error .nameError

/-- Phase-2 scheduler state: the `need_update` counter, the FIFO of
submitted-but-not-finished jobs (with `job_count = 1` the single worker
finishes them in submission order), and the trace of completed
`node.update(context)` calls in completion order. -/
structure P2 where
  nu : List (Nat × Nat)
  waiting : List Nat
  trace : List Nat
deriving DecidableEq

/-- Overwrite the value of a key in place (a dict assignment to an existing
key keeps its position). -/
def updateA {κ β : Type} [DecidableEq κ] : List (κ × β) → κ → β → List (κ × β)
  | [], _, _ => []
  | (k, b) :: rest, k', b' =>
      if k = k' then (k, b') :: rest else (k, b) :: updateA rest k' b'

/-- `maybe_submit(node)`: a node absent from `need_update` is updated
synchronously in the caller (and nothing further is triggered for it);
otherwise its counter is decremented and the node is submitted when the
counter reaches zero. -/
def maybe_submit (st : P2) (n : Nat) : P2 :=
  match lookupA st.nu n with
  | Option.none => { st with trace := st.trace ++ [n] }
  | some k =>
    if k - 1 = 0 then
      { st with nu := eraseKeyA st.nu n, waiting := st.waiting ++ [n] }
    else { st with nu := updateA st.nu n (k - 1) }

/-- The `while waiting:` loop: take the first finished future, record its
update, and call `maybe_submit` on each of its reverse dependencies.  Each
submission consumes one `need_update` entry, so the entry count bounds the
iterations; the fuel is instantiated accordingly and never runs out. -/
def phase2_loop (g : List TNode) : Nat → P2 → P2
  | 0, st => st
  | fuel + 1, st =>
    match st.waiting with
    | [] => st
    | n :: rest =>
      let st1 := { st with waiting := rest, trace := st.trace ++ [n] }
      let st2 := (g.getD n default).reverse_dependencies.foldl maybe_submit st1
      phase2_loop g fuel st2

/-- `traversal.update(context, targets, dirty)`: returns the trace of
completed `update` calls and the exception the call raises.  Both exits
raise `NameError` — in Phase 1 at the first traversed edge (before any
update has run), or at the final `return new_dirty` otherwise. -/
def traversal_update (g : List TNode) (targets dirty : List Nat) :
    List Nat × Option TravErr :=
  match phase1_loop g dirty [Option.none] [] with
  | .error e => ([], some e)
  | .ok nu =>
    let st0 := dirty.foldl maybe_submit ⟨nu, [], []⟩
    let st1 := phase2_loop g (nu.length + 1) st0
    (st1.trace, some .nameError)

/-! ## nodes.py — `Application.update` (the cache-hit path and its miss
branch)

An `Application` depends on its builder and its inputs; implicit
dependencies are `SourceFile` nodes learned later.  `context.file_by_path`
canonicalises source files by path, so a source-file node is identified
here by its path, and the dependency set of the application is a list of
`DepRef`s.  Inputs are taken to be source files (as in the scenarios the
claims describe); `named_dependencies` stays empty on this path because
`Application.__init__` adds builder and inputs without names. -/

inductive DepRef where
  | builderDep
  | srcDep (path : String)
deriving DecidableEq

structure AppNode where
  builder_hash : List Nat                       -- builder.get_hash()
  inputs : List String                          -- paths of the input SourceFiles
  dependencies : List DepRef
  implicit_dependencies : Option (List String)  -- paths of the implicit-dep nodes
deriving DecidableEq

/-- The context as `Application.update` sees it: file contents (for
`SourceFile.get_hash`), the path → node map `context.files` (a set of
paths, since nodes are canonical by path), and the cache. -/
structure BuildCtx where
  fs : List (String × List Nat)
  files : List String
  cache : Cache (List Nat) (List (String × List Nat))
deriving DecidableEq

inductive UpdErr where
  | fileNotFound       -- stat/open of a missing path in SourceFile.get_hash
  | dependencyMissing  -- Node.remove_dependency of an absent edge
  | keyError           -- cache index inconsistency in get_candidate_implicit_dependencies
  | notAbsolute        -- "Builder must return implicit dependencies as absolute paths."
  | cacheError (e : CacheErr)  -- exception out of cache.put
deriving DecidableEq

/-- Observable calls of one `Application.update` run.  `cache.accessed` never
appears in the method's source, which is the point of claim C5; the
accessed loop at the end of the miss branch calls `node.accessed(context)`
on `SourceFile`s, whose `accessed` is a no-op. -/
inductive Ev where
  | buildEv            -- builder.build(...)
  | putEv (h : List Nat)  -- cache.put(full_hash, ...)
deriving DecidableEq

/-- `context.file_by_path(path)`: creates and registers the SourceFile on
first reference. -/
def file_by_path (ctx : BuildCtx) (p : String) : BuildCtx :=
  if p ∈ ctx.files then ctx else { ctx with files := ctx.files ++ [p] }

/-- `SourceFile.get_hash()` = `util.sha1_file(self.path)`; a missing file
raises. -/
def source_hash (fs : List (String × List Nat)) (p : String) : Option (List Nat) :=
  (lookupA fs p).map sha1_file

/-- Hashes of the inputs, `x.get_hash() for x in self.inputs`. -/
def inputs_hashes (fs : List (String × List Nat)) : List String → Option (List (List Nat))
  | [] => some []
  | p :: rest =>
    match source_hash fs p with
    | Option.none => Option.none
    | some h => (inputs_hashes fs rest).map (fun l => h :: l)

/-- `Application._get_hash(implicit_dependencies)` = `hash_helper([cls.__name__],
[builder hash], input hashes, implicit part)`, where the implicit part is
`[None]` when the argument is `None` and the dependency hashes otherwise. -/
def app_hash_with (fs : List (String × List Nat)) (app : AppNode)
    (impl : Option (List String)) : Option (List Nat) :=
  match inputs_hashes fs app.inputs with
  | Option.none => Option.none
  | some ihs =>
    match impl with
    | Option.none =>
        some (sha1_iterable [[.str "Application"], [.bytes app.builder_hash],
          ihs.map .bytes, [.none]])
    | some deps =>
      match inputs_hashes fs deps with
      | Option.none => Option.none
      | some dhs =>
          some (sha1_iterable [[.str "Application"], [.bytes app.builder_hash],
            ihs.map .bytes, dhs.map .bytes])

/-- The partial fingerprint `self._get_hash(None)`. -/
def app_part_hash (fs : List (String × List Nat)) (app : AppNode) : Option (List Nat) :=
  app_hash_with fs app Option.none

/-- `Application.get_hash()` = `self._get_hash(self.implicit_dependencies)`. -/
def app_get_hash (fs : List (String × List Nat)) (app : AppNode) : Option (List Nat) :=
  app_hash_with fs app app.implicit_dependencies

/-- The removal loop of `_set_implicit_dependencies`: `self.remove_dependency
(node)` for each previously recorded implicit dependency. -/
def remove_all_deps : List DepRef → List String → Except UpdErr (List DepRef)
  | deps, [] => .ok deps
  | deps, p :: rest =>
    if DepRef.srcDep p ∈ deps then remove_all_deps (deps.erase (DepRef.srcDep p)) rest
    else .error .dependencyMissing

/-- `Application._set_implicit_dependencies(nodes)`: drop the old implicit
edges, record `nodes`, and add each new node as an edge unless it already
is one. -/
def set_implicit_dependencies (app : AppNode) (nodes : Option (List String)) :
    Except UpdErr AppNode :=
  match remove_all_deps app.dependencies ((app.implicit_dependencies).getD []) with
  | .error e => .error e
  | .ok deps1 =>
    let deps2 := match nodes with
      | Option.none => deps1
      | some ns => ns.foldl
          (fun d p => if DepRef.srcDep p ∈ d then d else d ++ [DepRef.srcDep p]) deps1
    .ok { app with dependencies := deps2, implicit_dependencies := nodes }

/-- The candidate loop of `_try_implicit_dependencies`: walk `(path, hash)`
pairs in order, registering each path via `file_by_path`; a missing file
raises out of `get_hash`; a hash mismatch returns `False` (keeping the
registrations made so far); full agreement yields the rehydrated node list
in order. -/
def try_implicit_loop (ctx : BuildCtx) (acc : List String) :
    List (String × List Nat) → Except UpdErr (BuildCtx × Option (List String))
  | [] => .ok (ctx, some acc)
  | (p, h) :: rest =>
    let ctx' := file_by_path ctx p
    match source_hash ctx'.fs p with
    | Option.none => .error .fileNotFound
    | some hh =>
      if hh = h then try_implicit_loop ctx' (acc ++ [p]) rest
      else .ok (ctx', Option.none)

/-- `Application._try_implicit_dependencies(context, deps)`. -/
def try_implicit_dependencies (ctx : BuildCtx) (app : AppNode)
    (deps : List (String × List Nat)) : Except UpdErr (BuildCtx × AppNode × Bool) :=
  match try_implicit_loop ctx [] deps with
  | .error e => .error e
  | .ok (ctx', Option.none) => .ok (ctx', app, false)
  | .ok (ctx', some ret) =>
    (set_implicit_dependencies app (some ret)).map (fun app' => (ctx', app', true))

/-- The `for deps in candidates:` loop of `_find_cached_implicit_dependencies`;
when no candidate matches, `_set_implicit_dependencies(None)` runs and the
method returns `False`. -/
def find_loop (ctx : BuildCtx) (app : AppNode) :
    List (List (String × List Nat)) → Except UpdErr (BuildCtx × AppNode × Bool)
  | [] => (set_implicit_dependencies app Option.none).map (fun app' => (ctx, app', false))
  | ds :: rest =>
    match try_implicit_dependencies ctx app ds with
    | .error e => .error e
    | .ok (ctx', app', true) => .ok (ctx', app', true)
    | .ok (ctx', app', false) => find_loop ctx' app' rest

/-- `Application._find_cached_implicit_dependencies(context)`. -/
def find_cached_implicit_dependencies (ctx : BuildCtx) (app : AppNode) :
    Except UpdErr (BuildCtx × AppNode × Bool) :=
  match app_part_hash ctx.fs app with
  | Option.none => .error .fileNotFound
  | some ph =>
    match ctx.cache.get_candidate_implicit_dependencies ph with
    | (cache', .error _) => .error .keyError
    | (cache', .ok cands) => find_loop { ctx with cache := cache' } app cands

/-- `Application.update(context)`.  On a cache hit the method returns at
once — no build, no `cache.put`, and (the subject of claim C5) no
`cache.accessed`.  The miss branch runs `builder.build` (supplied as the
function `build`, producing the scratch `outs` and the scanned dependency
paths), converts the scanned paths, records them, and calls `cache.put`;
the closing `accessed()` loop only touches `SourceFile`s, whose `accessed`
does nothing. -/
def app_update (build : BuildCtx → List String) (outs : List (String × Int))
    (ctx : BuildCtx) (app : AppNode) :
    Except UpdErr (BuildCtx × AppNode × List Ev) :=
  match find_cached_implicit_dependencies ctx app with
  | .error e => .error e
  | .ok (ctx1, app1, true) => .ok (ctx1, app1, [])
  | .ok (ctx1, app1, false) =>
    let computed := build ctx1
    if !computed.all (fun p => p.startsWith "/") then .error .notAbsolute
    else
      let ctx2 := computed.foldl file_by_path ctx1
      match set_implicit_dependencies app1 (some computed) with
      | .error e => .error e
      | .ok app2 =>
        match app_get_hash ctx2.fs app2, app_part_hash ctx2.fs app2,
              inputs_hashes ctx2.fs computed with
        | some full, some ph, some dhs =>
          match ctx2.cache.put full ph outs (computed.zip dhs) with
          | (cache', some e) => .error (.cacheError e)
          | (cache', none) =>
              .ok ({ ctx2 with cache := cache' }, app2, [.buildEv, .putEv full])
        | _, _, _ => .error .fileNotFound

/-! ## Concrete scenario states used by the claims -/

/-! C2 — oversized put (`size_limit = 10`, one 20-byte file). -/

/-- A fresh `Cache(directory, size_limit=10)` whose directory holds nothing. -/
def c2_cache0 : Cache String Nat := ⟨10, 0, [], [], [], false⟩

/-- `put(b"final", b"part0", [one 20-byte file], deps)` on the empty cache. -/
def c2_res : Cache String Nat × Option CacheErr :=
  c2_cache0.put "final" "part0" [("big", 20)] 0

/-- The same cache already holding one consistent 2-byte entry `"old"`. -/
def c2_cache1 : Cache String Nat :=
  ⟨10, 2, [("old", ⟨2, "p0", 0⟩)], [("p0", ["old"])], [("old", [("f", 2)])], true⟩

/-- The oversized put issued against the non-empty cache. -/
def c2_res1 : Cache String Nat × Option CacheErr :=
  c2_cache1.put "final" "part0" [("big", 20)] 0

/-! C6 — the LRU scenario of the spec (limit 10, nine 2-byte entries
sharing partial hash `"p"`, `accessed("final-0")` between the fifth and
sixth put). -/

/-- The two 1-byte files of each entry (`make_files(2)` of the test). -/
def c6_files : List (String × Int) := [("file0000", 1), ("file0001", 1)]

/-- `Cache(directory, size_limit=10)`, fresh. -/
def c6_cache0 : Cache String Nat := ⟨10, 0, [], [], [], false⟩

/-- One scenario put: entry `final-<i>` of 2 bytes under partial `"p"`;
an already-raised exception stops the run. -/
def c6_put (st : Cache String Nat × Option CacheErr) (i : Nat) :
    Cache String Nat × Option CacheErr :=
  match st with
  | (c, some e) => (c, some e)
  | (c, none) => c.put ("final-" ++ toString i) "p" c6_files i

/-- State after inserting `final-0` … `final-4`. -/
def c6_after_five : Cache String Nat × Option CacheErr :=
  [0, 1, 2, 3, 4].foldl c6_put (c6_cache0, none)

/-- State after the `accessed("final-0")` call. -/
def c6_after_hit : Cache String Nat × Option CacheErr :=
  match c6_after_five with
  | (c, none) => c.accessed "final-0"
  | st => st

/-- Final state after inserting `final-5` … `final-8`. -/
def c6_final : Cache String Nat × Option CacheErr :=
  [5, 6, 7, 8].foldl c6_put c6_after_hit

/-! Expected intermediate states of the C6 run, written out as literals so
that each step of the run can be checked by evaluation without re-evaluating
the whole history (the states below were cross-checked against the model). -/

/-- C6 state after `put final-0`. -/
def c6_s1 : Cache String Nat :=
  ⟨10, 2, [("final-0", ⟨2, "p", 0⟩)],
   [("p", ["final-0"])],
   [("final-0", c6_files)], true⟩

/-- C6 state after `put final-1`. -/
def c6_s2 : Cache String Nat :=
  ⟨10, 4, [("final-0", ⟨2, "p", 0⟩), ("final-1", ⟨2, "p", 1⟩)],
   [("p", ["final-0", "final-1"])],
   [("final-0", c6_files), ("final-1", c6_files)], true⟩

/-- C6 state after `put final-2`. -/
def c6_s3 : Cache String Nat :=
  ⟨10, 6, [("final-0", ⟨2, "p", 0⟩), ("final-1", ⟨2, "p", 1⟩), ("final-2", ⟨2, "p", 2⟩)],
   [("p", ["final-0", "final-1", "final-2"])],
   [("final-0", c6_files), ("final-1", c6_files), ("final-2", c6_files)], true⟩

/-- C6 state after `put final-3`. -/
def c6_s4 : Cache String Nat :=
  ⟨10, 8, [("final-0", ⟨2, "p", 0⟩), ("final-1", ⟨2, "p", 1⟩), ("final-2", ⟨2, "p", 2⟩),
    ("final-3", ⟨2, "p", 3⟩)],
   [("p", ["final-0", "final-1", "final-2", "final-3"])],
   [("final-0", c6_files), ("final-1", c6_files), ("final-2", c6_files),
    ("final-3", c6_files)], true⟩

/-- C6 state after `put final-4`: full at 10 bytes. -/
def c6_s5 : Cache String Nat :=
  ⟨10, 10, [("final-0", ⟨2, "p", 0⟩), ("final-1", ⟨2, "p", 1⟩), ("final-2", ⟨2, "p", 2⟩),
    ("final-3", ⟨2, "p", 3⟩), ("final-4", ⟨2, "p", 4⟩)],
   [("p", ["final-0", "final-1", "final-2", "final-3", "final-4"])],
   [("final-0", c6_files), ("final-1", c6_files), ("final-2", c6_files),
    ("final-3", c6_files), ("final-4", c6_files)], true⟩

/-- C6 state after `accessed("final-0")`: `final-0` moved to the MRU end. -/
def c6_s5h : Cache String Nat :=
  ⟨10, 10, [("final-1", ⟨2, "p", 1⟩), ("final-2", ⟨2, "p", 2⟩), ("final-3", ⟨2, "p", 3⟩),
    ("final-4", ⟨2, "p", 4⟩), ("final-0", ⟨2, "p", 0⟩)],
   [("p", ["final-0", "final-1", "final-2", "final-3", "final-4"])],
   [("final-0", c6_files), ("final-1", c6_files), ("final-2", c6_files),
    ("final-3", c6_files), ("final-4", c6_files)], true⟩

/-- C6 state after `put final-5`: `final-1` (the LRU entry) was evicted. -/
def c6_s6 : Cache String Nat :=
  ⟨10, 10, [("final-2", ⟨2, "p", 2⟩), ("final-3", ⟨2, "p", 3⟩), ("final-4", ⟨2, "p", 4⟩),
    ("final-0", ⟨2, "p", 0⟩), ("final-5", ⟨2, "p", 5⟩)],
   [("p", ["final-0", "final-2", "final-3", "final-4", "final-5"])],
   [("final-0", c6_files), ("final-2", c6_files), ("final-3", c6_files),
    ("final-4", c6_files), ("final-5", c6_files)], true⟩

/-- C6 state after `put final-6`: `final-2` evicted. -/
def c6_s7 : Cache String Nat :=
  ⟨10, 10, [("final-3", ⟨2, "p", 3⟩), ("final-4", ⟨2, "p", 4⟩), ("final-0", ⟨2, "p", 0⟩),
    ("final-5", ⟨2, "p", 5⟩), ("final-6", ⟨2, "p", 6⟩)],
   [("p", ["final-0", "final-3", "final-4", "final-5", "final-6"])],
   [("final-0", c6_files), ("final-3", c6_files), ("final-4", c6_files),
    ("final-5", c6_files), ("final-6", c6_files)], true⟩

/-- C6 state after `put final-7`: `final-3` evicted. -/
def c6_s8 : Cache String Nat :=
  ⟨10, 10, [("final-4", ⟨2, "p", 4⟩), ("final-0", ⟨2, "p", 0⟩), ("final-5", ⟨2, "p", 5⟩),
    ("final-6", ⟨2, "p", 6⟩), ("final-7", ⟨2, "p", 7⟩)],
   [("p", ["final-0", "final-4", "final-5", "final-6", "final-7"])],
   [("final-0", c6_files), ("final-4", c6_files), ("final-5", c6_files),
    ("final-6", c6_files), ("final-7", c6_files)], true⟩

/-- C6 state after `put final-8`: `final-4` evicted; survivors are
`final-0` and `final-5` … `final-8`. -/
def c6_s9 : Cache String Nat :=
  ⟨10, 10, [("final-0", ⟨2, "p", 0⟩), ("final-5", ⟨2, "p", 5⟩), ("final-6", ⟨2, "p", 6⟩),
    ("final-7", ⟨2, "p", 7⟩), ("final-8", ⟨2, "p", 8⟩)],
   [("p", ["final-0", "final-5", "final-6", "final-7", "final-8"])],
   [("final-0", c6_files), ("final-5", c6_files), ("final-6", c6_files),
    ("final-7", c6_files), ("final-8", c6_files)], true⟩

/-! C4 — two freshly constructed nodes and one `add_dependency` call. -/

def c4_g0 : Graph := [fresh_node, fresh_node]

def c4_res : Graph × Option GErr := add_dependency c4_g0 0 1 Option.none

def c4_g1 : Graph := c4_res.1

/-- Members of a node's reverse-dependency set (`[]` while it is `None`). -/
def revdep_members (g : Graph) (v : Nat) : List Nat :=
  ((node_at g v).reverse_dependencies).getD []

/-! C3 — two subgraphs `src → app → out` over the same path `"/a"`,
registered as two targets.  Ids: 0 = `SourceFile("/a")` (first copy),
1 = builder₁, 2 = application₁ (deps `[1, 0]`, builder first as in
`Application.__init__`), 3 = output₁ (the first registered target),
4 = `SourceFile("/a")` (second copy), 5 = builder₂, 6 = application₂,
7 = output₂ (the second registered target). -/

def plain_node (deps : List Nat) : NodeData := { fresh_node with dependencies := deps }

def c3_g0 : Graph :=
  [source_node "/a", plain_node [], plain_node [1, 0], plain_node [2],
   source_node "/a", plain_node [], plain_node [5, 4], plain_node [6]]

/-- First registration: `_TargetData` 100 for target node 3. -/
def c3_reg1 : Reg × Nat × Option GErr :=
  process_nodes 100 32 ⟨c3_g0, [], []⟩ 3 [3]

/-- Second registration: `_TargetData` 101 for target node 7, against the
state the first registration left behind. -/
def c3_reg2 : Reg × Nat × Option GErr :=
  process_nodes 101 32 c3_reg1.1 7 [7]

/-! C1 — the three-node graph `src → app → out` for `traversal.update`.
Ids: 0 = src, 1 = app, 2 = out; reverse edges `0 → 1 → 2`; every node
belongs to the selected target 2; the initial dirty set is `{src}`. -/

def c1_g : List TNode := [⟨[1], [2]⟩, ⟨[2], [2]⟩, ⟨[], [2]⟩]

def c1_res : List Nat × Option TravErr := traversal_update c1_g [2] [0]

/-! C5 — an `Application` with a matching cache candidate.  The candidate's
implicit-dependency list is empty, so it rehydrates trivially; the cache
holds a second entry after it, so a `cache.accessed(full_hash)` call would
visibly reorder `_data`. -/

def c5_app : AppNode :=
  ⟨[7], [], [DepRef.builderDep], Option.none⟩

/-- The application's partial fingerprint over an empty file system. -/
def c5_part : List Nat := (app_part_hash [] c5_app).getD []

def c5_full0 : List Nat := [1, 2, 3]

def c5_other : List Nat := [9, 9]

def c5_cache : Cache (List Nat) (List (String × List Nat)) :=
  ⟨100, 0,
   [(c5_full0, ⟨0, c5_part, []⟩), (c5_other, ⟨0, [5], []⟩)],
   [(c5_part, [c5_full0]), ([5], [c5_other])],
   [], false⟩

def c5_ctx : BuildCtx := ⟨[], [], c5_cache⟩

def c5_res : Except UpdErr (BuildCtx × AppNode × List Ev) :=
  app_update (fun _ => []) [] c5_ctx c5_app

/-! C8 — a colliding pair of distinct sequences: an element containing the
null byte makes the null-separated streams coincide. -/

def c8_xs : List PyVal := [.bytes [97, 98, 0], .bytes [99]]

def c8_ys : List PyVal := [.bytes [97, 98], .bytes [0, 99]]

/-- Whether a candidate's recorded pairs all match the current fingerprints
(`node.get_hash() == hash` for every `(path, hash)`). -/
def cand_matches (fs : List (String × List Nat)) (ds : List (String × List Nat)) : Bool :=
  ds.all (fun ph => source_hash fs ph.1 = some ph.2)

/-- Whether every path of a candidate exists on disk (so no `get_hash`
raises while the candidate is examined). -/
def cand_defined (fs : List (String × List Nat)) (ds : List (String × List Nat)) : Bool :=
  ds.all (fun ph => (lookupA fs ph.1).isSome)

/-- Well-formedness of an application's implicit-dependency bookkeeping:
the recorded nodes are distinct and each is present as an edge (this is
what `_set_implicit_dependencies` itself maintains). -/
def implicit_wf (app : AppNode) : Bool :=
  match app.implicit_dependencies with
  | Option.none => true
  | some old =>
      nodupB old && old.all (fun p => decide (DepRef.srcDep p ∈ app.dependencies))

/-! ## Theorems -/

/-- Streams distribute over concatenation of an iterable. -/
theorem item_stream_append (a b : List PyVal) :
    item_stream (a ++ b) = item_stream a ++ item_stream b := by
  induction a with
  | nil => simp [item_stream]
  | cons v vs ih => simp [item_stream, ih]

/-- C7: `hash_iterable(A, B)` equals `hash_iterable(A ++ B)` — passing
multiple iterables produces the same digest as hashing their
concatenation, because both feed the identical null-separated byte stream
into SHA-1. -/
theorem sha1_iterable_concat (A B : List PyVal) :
    sha1_iterable [A, B] = sha1_iterable [A ++ B] := by
  unfold sha1_iterable
  simp [stream_of, item_stream_append]

/-- C8 counterexample: the distinct element sequences `(b"ab\x00", b"c")` and
`(b"ab", b"\x00c")` feed the very same null-separated stream to SHA-1 (and
so receive the same digest): an element containing the null byte defeats
the separator, refuting injectivity over all ragged sequences. -/
theorem sha1_stream_ragged_collision :
    c8_xs ≠ c8_ys ∧ item_stream c8_xs = item_stream c8_ys ∧
    sha1_iterable [c8_xs] = sha1_iterable [c8_ys] := by
  decide

/-- A null byte acts as a separator on null-free chunks. -/
theorem feed_sep_inj (f : List Nat) : ∀ (g xs ys : List Nat), 0 ∉ f → 0 ∉ g →
    f ++ 0 :: xs = g ++ 0 :: ys → f = g ∧ xs = ys := by
  induction f with
  | nil =>
    intro g xs ys _ hg h
    cases g with
    | nil => simpa using h
    | cons b g' =>
      simp only [List.nil_append, List.cons_append, List.cons.injEq] at h
      exact absurd (h.1 ▸ List.mem_cons_self b g') hg
  | cons a f' ih =>
    intro g xs ys hf hg h
    cases g with
    | nil =>
      simp only [List.nil_append, List.cons_append, List.cons.injEq] at h
      exact absurd (h.1 ▸ List.mem_cons_self a f') hf
    | cons b g' =>
      simp only [List.cons_append, List.cons.injEq] at h
      obtain ⟨rfl, h2⟩ := h
      have hf' : 0 ∉ f' := fun hm => hf (List.mem_cons_of_mem _ hm)
      have hg' : 0 ∉ g' := fun hm => hg (List.mem_cons_of_mem _ hm)
      obtain ⟨rfl, h4⟩ := ih g' xs ys hf' hg' h2
      exact ⟨rfl, h4⟩

/-- A non-empty sequence has a non-empty stream. -/
theorem item_stream_eq_nil {vs : List PyVal} (h : item_stream vs = []) : vs = [] := by
  cases vs with
  | nil => rfl
  | cons v vs' => simp [item_stream] at h

/-- C8 amended: the null separator guarantees injectivity over sequences
whose elements' fed byte representations are null-free — equal streams
force equal sequences of fed representations (so `("ab", "c")` and
`("a", "bc")` feed different streams and hash differently, SHA-1
collisions aside).  An element containing a null byte, or two distinct
values sharing one representation, can still collide. -/
theorem sha1_stream_nullfree_injective :
    ∀ (xs ys : List PyVal),
      (∀ v ∈ xs, 0 ∉ feed_bytes v) → (∀ v ∈ ys, 0 ∉ feed_bytes v) →
      item_stream xs = item_stream ys → xs.map feed_bytes = ys.map feed_bytes := by
  intro xs
  induction xs with
  | nil =>
    intro ys _ _ h
    have hys : ys = [] := item_stream_eq_nil (by simpa [item_stream] using h.symm)
    subst hys
    rfl
  | cons v vs ih =>
    intro ys hx hy h
    cases ys with
    | nil => simp [item_stream] at h
    | cons w ws =>
      simp only [item_stream] at h
      obtain ⟨hfeed, hrest⟩ :=
        feed_sep_inj _ _ _ _ (hx v (List.mem_cons_self v vs))
          (hy w (List.mem_cons_self w ws)) h
      have ihs := ih ws (fun u hu => hx u (List.mem_cons_of_mem _ hu))
        (fun u hu => hy u (List.mem_cons_of_mem _ hu)) hrest
      simp [hfeed, ihs]

/-- C8 witness: the amended injectivity applied at a concrete null-free
pair whose streams agree. -/
theorem sha1_stream_nullfree_injective_witness :
    ([PyVal.bytes [97, 98], PyVal.bytes [99]].map feed_bytes
      = [PyVal.bytes ([97] ++ [98]), PyVal.bytes [99]].map feed_bytes) ∧
    item_stream [PyVal.bytes [97, 98], PyVal.bytes [99]]
      ≠ item_stream [PyVal.bytes [97], PyVal.bytes [98, 99]] :=
  ⟨sha1_stream_nullfree_injective
      [PyVal.bytes [97, 98], PyVal.bytes [99]]
      [PyVal.bytes ([97] ++ [98]), PyVal.bytes [99]]
      (by decide) (by decide) (by decide),
   by decide⟩

/-- C9: once `_load` has opened the metadata file, the `finally:` block
unlinks it unconditionally — after a load that found the file, the file is
gone whether decoding failed (`damaged`) or decoding succeeded (`valid`,
with `verify_state` deciding only the returned boolean, not the unlink). -/
theorem cache_load_unlinks_metadata :
    ∀ (c : Cache String Nat) (v : Nat) (su : Int)
      (d : List (String × _Item String Nat)) (ph : List (String × List String)),
      (c._load (some .damaged)).2.1 = Option.none ∧
      (c._load (some (.valid v su d ph))).2.1 = Option.none := by
  intro c v su d ph
  exact ⟨rfl, rfl⟩

/-- The state component returned by `get_candidate_implicit_dependencies` is
the state it was called on. -/
theorem get_candidate_fst {κ α : Type} [DecidableEq κ] (c : Cache κ α) (p : κ) :
    (c.get_candidate_implicit_dependencies p).1 = c := by
  unfold Cache.get_candidate_implicit_dependencies
  cases h : lookupA c.part_hashes p <;> simp

/-- C10: for every partial hash, known or unknown,
`get_candidate_implicit_dependencies` leaves the cache unchanged — the
primary map in its MRU order, the partial-hash index, `size_used` and the
on-disk state are exactly what they were. -/
theorem get_candidate_preserves_state :
    ∀ (c : Cache String Nat) (p : String),
      (c.get_candidate_implicit_dependencies p).1.data = c.data ∧
      (c.get_candidate_implicit_dependencies p).1.part_hashes = c.part_hashes ∧
      (c.get_candidate_implicit_dependencies p).1.size_used = c.size_used ∧
      (c.get_candidate_implicit_dependencies p).1.disk = c.disk ∧
      (c.get_candidate_implicit_dependencies p).1 = c := by
  intro c p
  rw [get_candidate_fst]
  exact ⟨rfl, rfl, rfl, rfl, rfl⟩

/-- C2 (code bug): an oversized `put` (limit 10, one 20-byte file) does not
raise `CacheTooSmall`.  Because `put` registers the new entry in `_data`
before `_reserve_space` runs, the eviction loop reaches the new entry
itself and `shutil.rmtree` of its not-yet-created directory raises
`FileNotFoundError`; `RuntimeError("The cache is too small")` is
unreachable from `put`.  On a fresh cache the state happens to return to
empty; on a cache already holding an entry the put also evicts that entry
first, so the cache is *not* unchanged. -/
theorem cache_put_oversized_not_cache_too_small :
    c2_res.2 = some CacheErr.fileNotFound ∧
    c2_res.2 ≠ some CacheErr.cacheTooSmall ∧
    c2_res.1 = c2_cache0 ∧
    c2_res1.2 = some CacheErr.fileNotFound ∧
    c2_res1.2 ≠ some CacheErr.cacheTooSmall ∧
    c2_res1.1.data = [] ∧ c2_res1.1.disk = [] ∧ c2_res1.1 ≠ c2_cache1 := by
  decide

/-- C1 (code bug): on the graph `src → app → out` with `out` selected and
`src` dirty, `traversal.update` raises `NameError` while traversing the
first edge of Phase 1 — the loop body's `new_dirty.add(...)` reads a name
that is assigned nowhere in the function — so `app.update` runs zero
times, not once. -/
theorem traversal_update_src_app_out_name_error :
    c1_res = ([], some TravErr.nameError) ∧ c1_res.1.count 1 = 0 := by
  decide

/-- C3 (code bug): registering a second subgraph whose `SourceFile("/a")`
duplicates an already-registered path raises `RuntimeError("Removing
nonexistent dependency")`: the merge loop iterates the reverse-dependents
of the *canonical* node (the first subgraph's application) and asks each
to drop an edge to the duplicate, an edge they never had.  The first
registration itself succeeds and records the canonical instance. -/
theorem duplicate_source_merge_raises :
    c3_reg1.2.2 = none ∧ c3_reg1.1.files = [("/a", 0)] ∧
    c3_reg2.2.2 = some GErr.dependencyMissing := by
  decide

/-- Reading an arena slot after writing one. -/
theorem getD_set {β : Type} (l : List β) (u : Nat) (a d : β) (i : Nat) :
    (l.set u a).getD i d = if i = u ∧ u < l.length then a else l.getD i d := by
  induction l generalizing u i with
  | nil => simp
  | cons x xs ih =>
    cases u with
    | zero =>
      cases i with
      | zero => simp
      | succ i' => simp
    | succ u' =>
      cases i with
      | zero => simp
      | succ i' =>
        simp only [List.set_cons_succ, List.getD_cons_succ, ih u' i', List.length_cons]
        by_cases hc : i' = u' ∧ u' < xs.length
        · simp [hc.1, hc.2, Nat.succ_lt_succ hc.2]
        · have : ¬(i' + 1 = u' + 1 ∧ u' + 1 < xs.length + 1) := by
            intro hcc
            exact hc ⟨Nat.succ_injective hcc.1, Nat.lt_of_succ_lt_succ hcc.2⟩
          simp [hc, this]

/-- Arena access after an arena write. -/
theorem node_at_set (g : Graph) (u : Nat) (a : NodeData) (i : Nat) :
    node_at (g.set u a) i = if i = u ∧ u < g.length then a else node_at g i :=
  getD_set g u a default i

/-- Writing a slot whose reverse-dependency field is unchanged leaves every
node's reverse-dependency field as it was. -/
theorem node_at_set_rev (g : Graph) (u : Nat) (nd : NodeData)
    (h : nd.reverse_dependencies = (node_at g u).reverse_dependencies) (i : Nat) :
    (node_at (g.set u nd) i).reverse_dependencies
      = (node_at g i).reverse_dependencies := by
  rw [node_at_set]
  split
  · next hc => rw [h, hc.1]
  · rfl

/-- C4 counterexample: on two freshly constructed nodes,
`node0.add_dependency(node1)` inserts the forward edge but does not touch
`node1.reverse_dependencies`, which stays `None` — the claimed coupled
insertion into the reverse set does not happen. -/
theorem add_dependency_no_reverse_insert :
    c4_res.2 = none ∧ (1 ∈ (node_at c4_g1 0).dependencies) ∧
    (node_at c4_g1 1).reverse_dependencies = Option.none ∧
    0 ∉ revdep_members c4_g1 1 := by
  decide

/-- C4 amended: `add_dependency` on a new edge inserts the forward edge
only, and neither `add_dependency` nor `remove_dependency` ever touches any
node's reverse-dependency set (reverse sets are populated separately during
target registration); `remove_dependency` removes the forward edge and its
named alias; repeating an insertion or removing an absent edge raises and
leaves the graph unchanged. -/
theorem add_remove_dependency_forward_only :
    (∀ (g : Graph) (u v : Nat) (nm : Option String) (i : Nat),
       (node_at (add_dependency g u v nm).1 i).reverse_dependencies
         = (node_at g i).reverse_dependencies) ∧
    (∀ (g : Graph) (u v i : Nat),
       (node_at (remove_dependency g u v).1 i).reverse_dependencies
         = (node_at g i).reverse_dependencies) ∧
    (∀ (g : Graph) (u v : Nat), u < g.length →
       v ∉ (node_at g u).dependencies →
       (add_dependency g u v Option.none).2 = none ∧
       (node_at (add_dependency g u v Option.none).1 u).dependencies
         = (node_at g u).dependencies ++ [v]) ∧
    (∀ (g : Graph) (u v : Nat), u < g.length →
       v ∈ (node_at g u).dependencies →
       (remove_dependency g u v).2 = none ∧
       (node_at (remove_dependency g u v).1 u).dependencies
         = (node_at g u).dependencies.erase v) ∧
    (∀ (g : Graph) (u v : Nat), v ∈ (node_at g u).dependencies →
       (add_dependency g u v Option.none).2 = some GErr.dependencyExists ∧
       (add_dependency g u v Option.none).1 = g) ∧
    (∀ (g : Graph) (u v : Nat), v ∉ (node_at g u).dependencies →
       (remove_dependency g u v).2 = some GErr.dependencyMissing ∧
       (remove_dependency g u v).1 = g) := by
  refine ⟨?_, ?_, ?_, ?_, ?_, ?_⟩
  · intro g u v nm i
    by_cases h1 : v ∈ (node_at g u).dependencies
    · simp [add_dependency, h1]
    · cases nm with
      | none =>
        simp only [add_dependency, h1, if_false]
        apply node_at_set_rev
        rfl
      | some n =>
        by_cases h2 : (lookupA (node_at g u).named_dependencies n).isSome
        · simp [add_dependency, h1, h2]
        · simp only [add_dependency, h1, h2, if_false, Bool.false_eq_true]
          apply node_at_set_rev
          rfl
  · intro g u v i
    by_cases h1 : v ∈ (node_at g u).dependencies
    · simp only [remove_dependency, h1, not_true, if_false]
      apply node_at_set_rev
      rfl
    · simp [remove_dependency, h1]
  · intro g u v hu h1
    refine ⟨by simp [add_dependency, h1], ?_⟩
    simp only [add_dependency, h1, if_false]
    rw [node_at_set]
    simp [hu]
  · intro g u v hu h1
    refine ⟨by simp [remove_dependency, h1], ?_⟩
    simp only [remove_dependency, h1, not_true, if_false]
    rw [node_at_set]
    simp [hu]
  · intro g u v h1
    constructor <;> simp [add_dependency, h1]
  · intro g u v h1
    constructor <;> simp [remove_dependency, h1]

/-- C4 witness: the amended edge algebra applied to concrete graphs. -/
theorem add_remove_dependency_forward_only_witness :
    ((add_dependency c4_g0 0 1 Option.none).2 = none ∧
     (node_at (add_dependency c4_g0 0 1 Option.none).1 0).dependencies
       = (node_at c4_g0 0).dependencies ++ [1]) ∧
    ((remove_dependency c4_g1 0 1).2 = none ∧
     (node_at (remove_dependency c4_g1 0 1).1 0).dependencies
       = (node_at c4_g1 0).dependencies.erase 1) ∧
    (node_at (add_dependency c4_g0 0 1 Option.none).1 1).reverse_dependencies
      = (node_at c4_g0 1).reverse_dependencies :=
  ⟨add_remove_dependency_forward_only.2.2.1 c4_g0 0 1 (by decide) (by decide),
   add_remove_dependency_forward_only.2.2.2.1 c4_g1 0 1 (by decide) (by decide),
   add_remove_dependency_forward_only.1 c4_g0 0 1 Option.none 1⟩

/-- Lookup misses are exactly the absent keys. -/
theorem lookupA_eq_none {κ β : Type} [DecidableEq κ] (l : List (κ × β)) (k : κ) :
    lookupA l k = Option.none ↔ k ∉ l.map Prod.fst := by
  induction l with
  | nil => simp [lookupA]
  | cons kb rest ih =>
    obtain ⟨k', b⟩ := kb
    by_cases h : k' = k
    · simp [lookupA, h]
    · have hk : ¬ k = k' := fun hh => h hh.symm
      simp only [lookupA, if_neg h, List.map_cons, List.mem_cons, ih]
      tauto

/-- Deleting one key cannot make another key appear. -/
theorem lookupA_eraseKeyA_none {κ β : Type} [DecidableEq κ]
    (l : List (κ × β)) (g k : κ) (h : lookupA l k = Option.none) :
    lookupA (eraseKeyA l g) k = Option.none := by
  induction l with
  | nil => simp [eraseKeyA, lookupA]
  | cons kb rest ih =>
    obtain ⟨k', b⟩ := kb
    by_cases hk : k' = k
    · simp [lookupA, hk] at h
    · have hrest : lookupA rest k = Option.none := by simpa [lookupA, hk] using h
      by_cases hg : k' = g
      · simpa [eraseKeyA, hg] using hrest
      · simp [eraseKeyA, hg, lookupA, hk, ih hrest]

/-- One-step unfolding of the eviction loop. -/
theorem reserve_loop_eq {κ α : Type} [DecidableEq κ] (size limit : Int)
    (data : List (κ × _Item κ α)) (ph : List (κ × List κ))
    (disk : List (κ × List (String × Int))) (used : Int) :
    reserve_loop size limit data ph disk used =
      if used + size > limit then
        match data with
        | [] => (([], ph, disk, used), some .cacheTooSmall)
        | (fh, it) :: rest =>
          match bucket_remove ph it.part_hash fh with
          | .error e => ((rest, ph, disk, used), some e)
          | .ok ph' =>
            match lookupA disk fh with
            | Option.none => ((rest, ph', disk, used), some .fileNotFound)
            | some _ => reserve_loop size limit rest ph' (eraseKeyA disk fh) (used - it.size)
      else ((data, ph, disk, used), none) := by
  cases data <;> rfl

/-- Eviction only ever removes from the LRU end: whatever the loop leaves in
`_data` is a suffix of what it started from (in MRU order). -/
theorem reserve_loop_suffix {κ α : Type} [DecidableEq κ] (size limit : Int)
    (data : List (κ × _Item κ α)) :
    ∀ (ph : List (κ × List κ)) (disk : List (κ × List (String × Int))) (used : Int),
      (reserve_loop size limit data ph disk used).1.1 <:+ data := by
  induction data with
  | nil =>
    intro ph disk used
    rw [reserve_loop_eq]
    by_cases h : used + size > limit <;> simp [h]
  | cons hd tl ih =>
    intro ph disk used
    obtain ⟨fh, it⟩ := hd
    rw [reserve_loop_eq]
    by_cases h : used + size > limit
    · simp only [h, if_true]
      cases hb : bucket_remove ph it.part_hash fh with
      | error e => simp
      | ok ph' =>
        cases hd2 : lookupA disk fh with
        | none => simp
        | some w =>
          exact (ih ph' (eraseKeyA disk fh) (used - it.size)).trans (List.suffix_cons _ _)
    · simp [h]

/-- When the eviction loop exits without an exception, an entry that sat at
the MRU end with no on-disk directory is still at the MRU end (it was never
discarded: discarding it would have raised `FileNotFoundError`). -/
theorem reserve_loop_last {κ α : Type} [DecidableEq κ] (size limit : Int)
    (f : κ) (it : _Item κ α) (data : List (κ × _Item κ α)) :
    ∀ (ph : List (κ × List κ)) (disk : List (κ × List (String × Int))) (used : Int),
      f ∉ data.map Prod.fst → lookupA disk f = Option.none →
      (reserve_loop size limit (data ++ [(f, it)]) ph disk used).2 = none →
      (reserve_loop size limit (data ++ [(f, it)]) ph disk used).1.1.getLast?
        = some (f, it) := by
  induction data with
  | nil =>
    intro ph disk used _ hdisk hsucc
    rw [reserve_loop_eq] at hsucc ⊢
    by_cases h : used + size > limit
    · rw [if_pos h] at hsucc ⊢
      simp only [List.nil_append] at hsucc ⊢
      cases hb : bucket_remove ph it.part_hash f with
      | error e => rw [hb] at hsucc; simp at hsucc
      | ok ph' => rw [hb] at hsucc; simp [hdisk] at hsucc
    · rw [if_neg h]
      exact List.getLast?_concat _
  | cons hd tl ih =>
    intro ph disk used hmem hdisk hsucc
    obtain ⟨g, jt⟩ := hd
    rw [reserve_loop_eq] at hsucc ⊢
    by_cases h : used + size > limit
    · rw [if_pos h] at hsucc ⊢
      simp only [List.cons_append] at hsucc ⊢
      cases hb : bucket_remove ph jt.part_hash g with
      | error e => rw [hb] at hsucc; simp at hsucc
      | ok ph' =>
        rw [hb] at hsucc
        cases hd2 : lookupA disk g with
        | none => rw [hd2] at hsucc; simp at hsucc
        | some w =>
          rw [hd2] at hsucc
          exact ih ph' (eraseKeyA disk g) (used - jt.size)
            (fun hm => hmem (List.mem_cons_of_mem _ hm))
            (lookupA_eraseKeyA_none disk g f hdisk) hsucc
    · rw [if_neg h]
      exact List.getLast?_concat _

/-- Step checks of the C6 run, each a single operation on a literal state. -/
theorem c6_step1 :
    c6_cache0.put ("final-" ++ toString 0) "p" c6_files 0 = (c6_s1, none) := by decide

theorem c6_step2 :
    c6_s1.put ("final-" ++ toString 1) "p" c6_files 1 = (c6_s2, none) := by decide

theorem c6_step3 :
    c6_s2.put ("final-" ++ toString 2) "p" c6_files 2 = (c6_s3, none) := by decide

theorem c6_step4 :
    c6_s3.put ("final-" ++ toString 3) "p" c6_files 3 = (c6_s4, none) := by decide

theorem c6_step5 :
    c6_s4.put ("final-" ++ toString 4) "p" c6_files 4 = (c6_s5, none) := by decide

theorem c6_hit_step : c6_s5.accessed "final-0" = (c6_s5h, none) := by decide

theorem c6_step6 :
    c6_s5h.put ("final-" ++ toString 5) "p" c6_files 5 = (c6_s6, none) := by decide

theorem c6_step7 :
    c6_s6.put ("final-" ++ toString 6) "p" c6_files 6 = (c6_s7, none) := by decide

theorem c6_step8 :
    c6_s7.put ("final-" ++ toString 7) "p" c6_files 7 = (c6_s8, none) := by decide

theorem c6_step9 :
    c6_s8.put ("final-" ++ toString 8) "p" c6_files 8 = (c6_s9, none) := by decide

/-- The whole C6 run, assembled from the step checks. -/
theorem c6_final_eq : c6_final = (c6_s9, none) := by
  unfold c6_final c6_after_hit c6_after_five
  simp only [List.foldl_cons, List.foldl_nil, c6_put, c6_step1, c6_step2, c6_step3,
    c6_step4, c6_step5, c6_hit_step, c6_step6, c6_step7, c6_step8, c6_step9]

/-- C6: with limit 10, after `final-0` … `final-4` (2 bytes each, one
partial hash), `accessed("final-0")`, then `final-5` … `final-8`, the
surviving entries are exactly `final-0, final-5, final-6, final-7, final-8`
in MRU order; and in general eviction removes only from the LRU end while
`accessed` and a successful `put` (of an entry with no stale directory)
leave their entry MRU-most. -/
theorem cache_lru_eviction_scenario :
    (c6_final.2 = none ∧
     c6_final.1.data.map Prod.fst =
       ["final-0", "final-5", "final-6", "final-7", "final-8"]) ∧
    (∀ (c : Cache String Nat) (f : String),
       (c.accessed f).2 = none →
       ((c.accessed f).1.data.map Prod.fst).getLast? = some f) ∧
    (∀ (c : Cache String Nat) (f p : String) (files : List (String × Int)) (deps : Nat),
       (c.put f p files deps).2 = none → lookupA c.disk f = Option.none →
       ((c.put f p files deps).1.data.map Prod.fst).getLast? = some f) ∧
    (∀ (size limit : Int) (data : List (String × _Item String Nat))
       (ph : List (String × List String)) (disk : List (String × List (String × Int)))
       (used : Int),
       (reserve_loop size limit data ph disk used).1.1 <:+ data) := by
  refine ⟨⟨by rw [c6_final_eq], by rw [c6_final_eq]; decide⟩, ?_, ?_, ?_⟩
  · intro c f hsucc
    unfold Cache.accessed at hsucc ⊢
    split at hsucc
    · simp at hsucc
    · simp [List.getLast?_concat]
  · intro c f p files deps hsucc hdisk
    have h0 : lookupA c.data f = Option.none := by
      by_contra hc
      cases hx : lookupA c.data f with
      | none => exact hc hx
      | some it =>
        unfold Cache.put at hsucc
        rw [if_pos (by simp [hx])] at hsucc
        simp at hsucc
    have h2 : f ∉ (lookupA c.part_hashes p).getD [] := by
      intro hin
      unfold Cache.put at hsucc
      rw [if_neg (by simp [h0]), if_pos hin] at hsucc
      simp at hsucc
    have hmem : f ∉ c.data.map Prod.fst := (lookupA_eq_none _ _).mp h0
    unfold Cache.put reserve_space at hsucc ⊢
    rw [if_neg (by simp [h0]), if_neg h2] at hsucc ⊢
    simp only [] at hsucc ⊢
    rcases hL : reserve_loop ((files.map (fun x => x.2)).sum) c.size_limit
        (c.data ++ [(f, ⟨(files.map (fun x => x.2)).sum, p, deps⟩)])
        (bucket_append c.part_hashes p f) c.disk c.size_used
      with ⟨⟨data', ph', disk', used'⟩, e⟩
    rw [hL] at hsucc ⊢
    cases e with
    | some e => simp at hsucc
    | none =>
      have hlast := reserve_loop_last ((files.map (fun x => x.2)).sum) c.size_limit
        f ⟨(files.map (fun x => x.2)).sum, p, deps⟩ c.data
        (bucket_append c.part_hashes p f) c.disk c.size_used hmem hdisk
        (by rw [hL])
      rw [hL] at hlast
      simp only [] at hsucc ⊢
      by_cases hds : (lookupA disk' f).isSome
      · rw [if_pos hds] at hsucc
        simp at hsucc
      · rw [if_neg hds]
        simp only [List.getLast?_map, hlast]
        rfl
  · intro size limit data ph disk used
    exact reserve_loop_suffix size limit data ph disk used

/-- C6 witness: the general clauses applied at concrete caches. -/
theorem cache_lru_eviction_scenario_witness :
    (((c6_s5.accessed "final-0").1.data.map Prod.fst).getLast? = some "final-0") ∧
    (((c2_cache1.put "new" "p1" [("x", 1)] 0).1.data.map Prod.fst).getLast?
       = some "new") ∧
    ((reserve_loop 2 10 c2_cache1.data c2_cache1.part_hashes c2_cache1.disk 2).1.1
       <:+ c2_cache1.data) :=
  ⟨cache_lru_eviction_scenario.2.1 c6_s5 "final-0" (by decide),
   cache_lru_eviction_scenario.2.2.1 c2_cache1 "new" "p1" [("x", 1)] 0
     (by decide) (by decide),
   cache_lru_eviction_scenario.2.2.2 2 10 c2_cache1.data c2_cache1.part_hashes
     c2_cache1.disk 2⟩

/-- Registering a path touches only `context.files`. -/
theorem file_by_path_fs (ctx : BuildCtx) (p : String) :
    (file_by_path ctx p).fs = ctx.fs := by
  unfold file_by_path
  split <;> rfl

/-- Registering a path leaves the cache alone. -/
theorem file_by_path_cache (ctx : BuildCtx) (p : String) :
    (file_by_path ctx p).cache = ctx.cache := by
  unfold file_by_path
  split <;> rfl

/-- A fully matching candidate rehydrates to its recorded paths in order. -/
theorem try_implicit_loop_matches (ds : List (String × List Nat)) :
    ∀ (ctx : BuildCtx) (acc : List String),
      cand_defined ctx.fs ds = true → cand_matches ctx.fs ds = true →
      ∃ ctx', try_implicit_loop ctx acc ds = .ok (ctx', some (acc ++ ds.map Prod.fst)) ∧
        ctx'.fs = ctx.fs ∧ ctx'.cache = ctx.cache := by
  induction ds with
  | nil =>
    intro ctx acc _ _
    exact ⟨ctx, by simp [try_implicit_loop], rfl, rfl⟩
  | cons hd rest ih =>
    intro ctx acc hdef hmat
    obtain ⟨q, h⟩ := hd
    unfold cand_defined at hdef
    unfold cand_matches at hmat
    simp only [List.all_cons, Bool.and_eq_true] at hdef hmat
    obtain ⟨hd1, hdef'⟩ := hdef
    obtain ⟨hm1, hmat'⟩ := hmat
    have hsh : source_hash ctx.fs q = some h := by simpa using hm1
    unfold try_implicit_loop
    simp only []
    rw [file_by_path_fs, hsh]
    simp only [if_pos rfl]
    obtain ⟨ctx', hrec, hfs, hc⟩ := ih (file_by_path ctx q) (acc ++ [q])
      (by rw [file_by_path_fs]; exact hdef')
      (by rw [file_by_path_fs]; exact hmat')
    refine ⟨ctx', ?_, hfs.trans (file_by_path_fs ctx q), hc.trans (file_by_path_cache ctx q)⟩
    rw [hrec]
    simp

/-- A candidate whose files exist but whose hashes do not all match is
rejected with `False`, only registering paths on the way. -/
theorem try_implicit_loop_mismatch (ds : List (String × List Nat)) :
    ∀ (ctx : BuildCtx) (acc : List String),
      cand_defined ctx.fs ds = true → cand_matches ctx.fs ds = false →
      ∃ ctx', try_implicit_loop ctx acc ds = .ok (ctx', Option.none) ∧
        ctx'.fs = ctx.fs ∧ ctx'.cache = ctx.cache := by
  induction ds with
  | nil =>
    intro ctx acc _ hmat
    simp [cand_matches] at hmat
  | cons hd rest ih =>
    intro ctx acc hdef hmat
    obtain ⟨q, h⟩ := hd
    unfold cand_defined at hdef
    simp only [List.all_cons, Bool.and_eq_true] at hdef
    obtain ⟨hd1, hdef'⟩ := hdef
    obtain ⟨content, hcont⟩ : ∃ w, lookupA ctx.fs q = some w := by
      cases hx : lookupA ctx.fs q with
      | none => rw [hx] at hd1; simp at hd1
      | some w => exact ⟨w, rfl⟩
    have hsh : source_hash ctx.fs q = some (sha1_file content) := by
      unfold source_hash
      rw [hcont]
      rfl
    unfold try_implicit_loop
    simp only []
    rw [file_by_path_fs, hsh]
    simp only []
    by_cases he : sha1_file content = h
    · rw [if_pos he]
      have hmat' : cand_matches ctx.fs rest = false := by
        unfold cand_matches at hmat ⊢
        simp only [List.all_cons, Bool.and_eq_true] at hmat ⊢
        cases hr : rest.all (fun ph => decide (source_hash ctx.fs ph.1 = some ph.2)) with
        | false => rfl
        | true =>
          exfalso
          apply absurd hmat
          simp [hsh, he, hr]
      obtain ⟨ctx', hrec, hfs, hc⟩ := ih (file_by_path ctx q) (acc ++ [q])
        (by rw [file_by_path_fs]; exact hdef')
        (by rw [file_by_path_fs]; exact hmat')
      exact ⟨ctx', hrec, hfs.trans (file_by_path_fs ctx q),
        hc.trans (file_by_path_cache ctx q)⟩
    · rw [if_neg he]
      exact ⟨file_by_path ctx q, rfl, file_by_path_fs ctx q, file_by_path_cache ctx q⟩

/-- The removal loop of `_set_implicit_dependencies` succeeds when the old
implicit-dependency bookkeeping is consistent. -/
theorem remove_all_deps_ok (old : List String) :
    ∀ (deps : List DepRef), nodupB old = true →
      (∀ q ∈ old, DepRef.srcDep q ∈ deps) →
      ∃ deps', remove_all_deps deps old = .ok deps' := by
  induction old with
  | nil => intro deps _ _; exact ⟨deps, rfl⟩
  | cons q rest ih =>
    intro deps hnd hall
    simp only [nodupB, Bool.and_eq_true, Bool.not_eq_eq_eq_not, Bool.not_true,
      decide_eq_false_iff_not] at hnd
    unfold remove_all_deps
    rw [if_pos (hall q (List.mem_cons_self q rest))]
    apply ih _ hnd.2
    intro r hr
    have hrq : DepRef.srcDep r ≠ DepRef.srcDep q := by
      simp only [ne_eq, DepRef.srcDep.injEq]
      intro he
      exact hnd.1 (he ▸ hr)
    exact (List.mem_erase_of_ne hrq).mpr (hall r (List.mem_cons_of_mem _ hr))

/-- Adding the new implicit edges preserves membership. -/
theorem fold_add_mem_mono (ns : List String) :
    ∀ (d : List DepRef) (x : DepRef), x ∈ d →
      x ∈ ns.foldl
        (fun d p => if DepRef.srcDep p ∈ d then d else d ++ [DepRef.srcDep p]) d := by
  induction ns with
  | nil => intro d x hx; exact hx
  | cons q rest ih =>
    intro d x hx
    simp only [List.foldl_cons]
    apply ih
    by_cases hq : DepRef.srcDep q ∈ d
    · rw [if_pos hq]; exact hx
    · rw [if_neg hq]; exact List.mem_append_left _ hx

/-- Every new implicit dependency ends up as an edge. -/
theorem fold_add_mem (ns : List String) :
    ∀ (d : List DepRef) (q : String), q ∈ ns →
      DepRef.srcDep q ∈ ns.foldl
        (fun d p => if DepRef.srcDep p ∈ d then d else d ++ [DepRef.srcDep p]) d := by
  induction ns with
  | nil => intro d q hq; cases hq
  | cons r rest ih =>
    intro d q hq
    simp only [List.foldl_cons]
    rcases List.mem_cons.mp hq with rfl | hmem
    · apply fold_add_mem_mono
      by_cases hr : DepRef.srcDep q ∈ d
      · rw [if_pos hr]; exact hr
      · rw [if_neg hr]
        exact List.mem_append_right _ (List.mem_cons_self _ _)
    · exact ih _ q hmem

/-- `_set_implicit_dependencies(nodes)` on a well-formed application records
the nodes and has each of them as an edge afterwards. -/
theorem set_implicit_dependencies_ok (app : AppNode) (ns : List String)
    (hwf : implicit_wf app = true) :
    ∃ app', set_implicit_dependencies app (some ns) = .ok app' ∧
      app'.implicit_dependencies = some ns ∧
      ∀ q ∈ ns, DepRef.srcDep q ∈ app'.dependencies := by
  obtain ⟨deps', hd⟩ :
      ∃ d, remove_all_deps app.dependencies ((app.implicit_dependencies).getD [])
        = .ok d := by
    cases him : app.implicit_dependencies with
    | none => exact ⟨app.dependencies, rfl⟩
    | some old =>
      unfold implicit_wf at hwf
      rw [him] at hwf
      simp only [Bool.and_eq_true, List.all_eq_true, decide_eq_true_eq] at hwf
      simpa using remove_all_deps_ok old app.dependencies hwf.1 hwf.2
  unfold set_implicit_dependencies
  rw [hd]
  exact ⟨_, rfl, rfl, fun q hq => fold_add_mem ns deps' q hq⟩

/-- The candidate loop of `_find_cached_implicit_dependencies`: the first
fully matching candidate wins and is recorded, with no cache mutation. -/
theorem find_loop_hit (cands : List (List (String × List Nat))) :
    ∀ (ctx : BuildCtx) (app : AppNode) (ds : List (String × List Nat)),
      implicit_wf app = true →
      cands.all (cand_defined ctx.fs) = true →
      cands.find? (cand_matches ctx.fs) = some ds →
      ∃ ctx' app', find_loop ctx app cands = .ok (ctx', app', true) ∧
        ctx'.fs = ctx.fs ∧ ctx'.cache = ctx.cache ∧
        app'.implicit_dependencies = some (ds.map Prod.fst) ∧
        ∀ q ∈ ds.map Prod.fst, DepRef.srcDep q ∈ app'.dependencies := by
  induction cands with
  | nil =>
    intro ctx app ds _ _ hf
    simp at hf
  | cons c0 rest ih =>
    intro ctx app ds hwf hall hf
    simp only [List.all_cons, Bool.and_eq_true] at hall
    obtain ⟨hdef0, hdefr⟩ := hall
    cases hm : cand_matches ctx.fs c0 with
    | true =>
      rw [List.find?_cons_of_pos _ (by exact hm)] at hf
      have hcd : c0 = ds := by injection hf
      subst hcd
      obtain ⟨ctx1, htry, hfs1, hc1⟩ := try_implicit_loop_matches c0 ctx [] hdef0 hm
      obtain ⟨app', hset, himp, hdeps⟩ :=
        set_implicit_dependencies_ok app (c0.map Prod.fst) hwf
      unfold find_loop try_implicit_dependencies
      rw [htry]
      simp only [List.nil_append]
      rw [hset]
      exact ⟨ctx1, app', rfl, hfs1, hc1, himp, hdeps⟩
    | false =>
      rw [List.find?_cons_of_neg _ (by simp [hm])] at hf
      obtain ⟨ctx1, htry, hfs1, hc1⟩ := try_implicit_loop_mismatch c0 ctx [] hdef0 hm
      obtain ⟨ctx', app', hrec, hfs', hc', himp, hdeps⟩ := ih ctx1 app ds hwf
        (by rw [hfs1]; exact hdefr)
        (by rw [hfs1]; exact hf)
      unfold find_loop try_implicit_dependencies
      rw [htry]
      exact ⟨ctx', app', hrec, hfs'.trans hfs1, hc'.trans hc1, himp, hdeps⟩

/-- C5 counterexample: a hit (the cached candidate with empty implicit deps
matches trivially) makes `Application.update` return at once with the
implicit dependencies recorded and nothing built — but `cache.accessed` is
never called: the cache comes back bit-for-bit unchanged, although an
`accessed(full_hash)` call would visibly reorder `_data` (the matching
entry is not MRU-most). -/
theorem application_update_hit_no_accessed :
    c5_res = .ok (c5_ctx, { c5_app with implicit_dependencies := some ([] : List String) },
      []) ∧
    (c5_ctx.cache.accessed c5_full0).2 = none ∧
    (c5_ctx.cache.accessed c5_full0).1 ≠ c5_ctx.cache := by
  refine ⟨by decide, by decide, by decide⟩

/-- C5 amended: when `Application.update` finds a candidate whose every
`(path, stored_hash)` pair matches the current fingerprints (a hit), it
sets the implicit dependencies to the rehydrated nodes of the first such
candidate, keeps each of them as a graph edge, performs no build and no
`cache.put` (the call trace is empty), and — unlike the claim — does *not*
call `cache.accessed`: the cache state is returned unchanged. -/
theorem application_update_hit_amended :
    ∀ (build : BuildCtx → List String) (outs : List (String × Int))
      (ctx : BuildCtx) (app : AppNode) (ph : List Nat)
      (cands : List (List (String × List Nat))) (ds : List (String × List Nat)),
      implicit_wf app = true →
      app_part_hash ctx.fs app = some ph →
      (ctx.cache.get_candidate_implicit_dependencies ph).2 = .ok cands →
      cands.all (cand_defined ctx.fs) = true →
      cands.find? (cand_matches ctx.fs) = some ds →
      ∃ ctx' app',
        app_update build outs ctx app = .ok (ctx', app', []) ∧
        ctx'.cache = ctx.cache ∧ ctx'.fs = ctx.fs ∧
        app'.implicit_dependencies = some (ds.map Prod.fst) ∧
        ∀ q ∈ ds.map Prod.fst, DepRef.srcDep q ∈ app'.dependencies := by
  intro build outs ctx app ph cands ds hwf hph hcand hall hf
  have hpair : ctx.cache.get_candidate_implicit_dependencies ph = (ctx.cache, .ok cands) := by
    rw [Prod.ext_iff]
    exact ⟨get_candidate_fst ctx.cache ph, hcand⟩
  obtain ⟨ctx', app', hloop, hfs, hc, himp, hdeps⟩ := find_loop_hit cands ctx app ds hwf hall hf
  refine ⟨ctx', app', ?_, hc, hfs, himp, hdeps⟩
  unfold app_update find_cached_implicit_dependencies
  rw [hph]
  simp only []
  rw [hpair]
  simp only []
  have heta : ({ ctx with cache := ctx.cache } : BuildCtx) = ctx := rfl
  rw [heta, hloop]

/-- C5 witness: the amended hit behaviour applied to the concrete scenario. -/
theorem application_update_hit_amended_witness :
    ∃ (ctx' : BuildCtx) (app' : AppNode),
      app_update (fun _ => []) [] c5_ctx c5_app = .ok (ctx', app', []) ∧
      ctx'.cache = c5_ctx.cache ∧ ctx'.fs = c5_ctx.fs ∧
      app'.implicit_dependencies
        = some (([] : List (String × List Nat)).map Prod.fst) ∧
      ∀ q ∈ ([] : List (String × List Nat)).map Prod.fst,
        DepRef.srcDep q ∈ app'.dependencies :=
  application_update_hit_amended (fun _ => []) [] c5_ctx c5_app c5_part [[]] []
    (by decide) (by decide) (by decide) (by decide) (by decide)

end BS
